import Mathlib

/-!
# Verification of the ACE-AGI fact/graph store and decomposition engine

Shallow embedding of the two core modules of the repository:

* `src/python/agents/causal_agent.py` — the `CausalAgent` class: a directed
  graph of fact nodes plus a fact registry (`facts_db`), with keyword-rule
  edge building and a connectivity ("coherence") score.
* `src/src/orchestrator.py` — the `CognitiveOrchestrator` class: per-context
  counters and a rule-table command decomposition engine.

Python dicts are modelled as insertion-ordered association lists with unique
keys (every operation below preserves key uniqueness exactly as a dict does).
The ambient clock (`datetime.now().isoformat()`) is threaded as an explicit
`now : String` argument.  Dynamically typed payloads are modelled by `PyVal`.
Floats are modelled as exact rationals: every value reaching an arithmetic
comparison in the claims is a small dyadic/decimal rational on which the
Python float computation is exact.
-/

namespace ACE

/-- A dynamically typed Python value (the fragment these modules touch). -/
inductive PyVal where
  | str : String → PyVal
  | int : Int → PyVal
  | dict : List (String × PyVal) → PyVal
  | list : List PyVal → PyVal

/-- Attribute dictionaries attached to graph nodes / registry facts. -/
abbrev Attrs := List (String × PyVal)

/-- `d[k]` lookup in an association-list dict. -/
def assocGet {α : Type} (d : List (String × α)) (k : String) : Option α :=
  match d with
  | [] => none
  | (k', v) :: rest => if k' = k then some v else assocGet rest k

/-- `k in d` membership in an association-list dict. -/
def assocHas {α : Type} (d : List (String × α)) (k : String) : Bool :=
  (assocGet d k).isSome

/-- `d[k] = v`: update in place if the key exists (keeping its position, as a
Python dict does), else append at the end. -/
def assocSet {α : Type} (d : List (String × α)) (k : String) (v : α) :
    List (String × α) :=
  match d with
  | [] => [(k, v)]
  | (k', v') :: rest =>
      if k' = k then (k', v) :: rest else (k', v') :: assocSet rest k v

/-- Apply `f` to the value stored at `k`, if any. -/
def assocModify {α : Type} (d : List (String × α)) (k : String) (f : α → α) :
    List (String × α) :=
  match d with
  | [] => []
  | (k', v) :: rest =>
      if k' = k then (k', f v) :: rest else (k', v) :: assocModify rest k f

/-- `old.update(new)`: merge the entries of `new` into `old` one by one,
Python's semantics for `G.add_node(n, **attrs)` on an existing node. -/
def dictUpdate (old new : List (String × PyVal)) : List (String × PyVal) :=
  match new with
  | [] => old
  | (k, v) :: rest => dictUpdate (assocSet old k v) rest

/-- `str.lower()`, modelled on ASCII (every keyword in the rule tables is
ASCII lowercase; `Char.toLower` only lowers basic latin letters). -/
def pyLower (s : String) : String :=
  String.mk (s.toList.map Char.toLower)

/-- Is `needle` a contiguous sublist of `hay`?  Python's `needle in hay`
substring test, on the character lists. -/
def listSub (needle : List Char) : List Char → Bool
  | [] => needle.isEmpty
  | c :: rest => needle.isPrefixOf (c :: rest) || listSub needle rest

/-- Python's `needle in hay` substring containment on strings. -/
def strIn (needle hay : String) : Bool :=
  listSub needle.toList hay.toList

/-- `any(word in command for word in words)`. -/
def anyIn (words : List String) (command : String) : Bool :=
  words.any (fun w => strIn w command)

/-! ## SHA-256

`hashlib.sha256(command.encode()).hexdigest()[:8]` supplies the
content-addressed node ids, so the hash is embedded concretely.  All
arithmetic is `Nat` mod `2^32`. -/

/-- `2^32`. -/
def M32 : Nat := 4294967296

/-- UTF-8 encoding of one Unicode code point (Python's `str.encode()`). -/
def utf8Bytes (c : Nat) : List Nat :=
  if c < 128 then [c]
  else if c < 2048 then [192 + c / 64, 128 + c % 64]
  else if c < 65536 then [224 + c / 4096, 128 + c / 64 % 64, 128 + c % 64]
  else [240 + c / 262144, 128 + c / 4096 % 64, 128 + c / 64 % 64, 128 + c % 64]

/-- UTF-8 bytes of a string. -/
def strBytes (s : String) : List Nat :=
  (s.toList.map Char.toNat).flatMap utf8Bytes

/-- 32-bit right rotation. -/
def rotr (n x : Nat) : Nat :=
  ((x >>> n) ||| (x <<< (32 - n))) % M32

/-- SHA-256 Σ₀. -/
def bSig0 (x : Nat) : Nat := rotr 2 x ^^^ rotr 13 x ^^^ rotr 22 x

/-- SHA-256 Σ₁. -/
def bSig1 (x : Nat) : Nat := rotr 6 x ^^^ rotr 11 x ^^^ rotr 25 x

/-- SHA-256 σ₀. -/
def sSig0 (x : Nat) : Nat := rotr 7 x ^^^ rotr 18 x ^^^ (x >>> 3)

/-- SHA-256 σ₁. -/
def sSig1 (x : Nat) : Nat := rotr 17 x ^^^ rotr 19 x ^^^ (x >>> 10)

/-- SHA-256 Ch. -/
def shaCh (x y z : Nat) : Nat := (x &&& y) ^^^ ((x ^^^ 4294967295) &&& z)

/-- SHA-256 Maj. -/
def shaMaj (x y z : Nat) : Nat := (x &&& y) ^^^ (x &&& z) ^^^ (y &&& z)

/-- The 64 SHA-256 round constants. -/
def shaK : List Nat :=
  [1116352408, 1899447441, 3049323471, 3921009573, 961987163,
   1508970993, 2453635748, 2870763221, 3624381080, 310598401,
   607225278, 1426881987, 1925078388, 2162078206, 2614888103,
   3248222580, 3835390401, 4022224774, 264347078, 604807628,
   770255983, 1249150122, 1555081692, 1996064986, 2554220882,
   2821834349, 2952996808, 3210313671, 3336571891, 3584528711,
   113926993, 338241895, 666307205, 773529912, 1294757372,
   1396182291, 1695183700, 1986661051, 2177026350, 2456956037,
   2730485921, 2820302411, 3259730800, 3345764771, 3516065817,
   3600352804, 4094571909, 275423344, 430227734, 506948616,
   659060556, 883997877, 958139571, 1322822218, 1537002063,
   1747873779, 1955562222, 2024104815, 2227730452, 2361852424,
   2428436474, 2756734187, 3204031479, 3329325298]

/-- The initial SHA-256 hash state. -/
def shaH0 : List Nat :=
  [1779033703, 3144134277, 1013904242, 2773480762, 1359893119,
   2600822924, 528734635, 1541459225]

/-- Pad a byte message to a multiple of 64 bytes (one `0x80`, zeros, and the
bit length as 8 big-endian bytes). -/
def shaPad (msg : List Nat) : List Nat :=
  let L := msg.length
  let zeros := List.replicate ((119 - L % 64) % 64) 0
  let lenBytes := (List.range 8).map (fun i => ((8 * L) >>> (56 - 8 * i)) % 256)
  msg ++ 128 :: zeros ++ lenBytes

/-- Split a padded message into 64-byte blocks (`n` is the block count). -/
def shaBlocks (padded : List Nat) : List (List Nat) :=
  (List.range (padded.length / 64)).map
    (fun b => (List.range 64).map (fun i => padded.getD (64 * b + i) 0))

/-- The first 16 schedule words of a 64-byte block (big-endian). -/
def blockWords (block : List Nat) : List Nat :=
  (List.range 16).map (fun j =>
    block.getD (4 * j) 0 * 16777216 + block.getD (4 * j + 1) 0 * 65536 +
    block.getD (4 * j + 2) 0 * 256 + block.getD (4 * j + 3) 0)

/-- Extend the message schedule by `n` more words. -/
def extendSchedule (ws : List Nat) : Nat → List Nat
  | 0 => ws
  | n + 1 =>
      let l := ws.length
      let w := (sSig1 (ws.getD (l - 2) 0) + ws.getD (l - 7) 0 +
                sSig0 (ws.getD (l - 15) 0) + ws.getD (l - 16) 0) % M32
      extendSchedule (ws ++ [w]) n

/-- The 64 compression rounds, consuming `(wᵢ, kᵢ)` pairs. -/
def shaRounds : List (Nat × Nat) →
    Nat × Nat × Nat × Nat × Nat × Nat × Nat × Nat →
    Nat × Nat × Nat × Nat × Nat × Nat × Nat × Nat
  | [], st => st
  | (wi, ki) :: rest, (a, b, c, d, e, f, g, h) =>
      let t1 := (h + bSig1 e + shaCh e f g + ki + wi) % M32
      let t2 := (bSig0 a + shaMaj a b c) % M32
      shaRounds rest ((t1 + t2) % M32, a, b, c, (d + t1) % M32, e, f, g)

/-- Process one block, updating the 8-word hash state. -/
def shaBlockStep (hs : List Nat) (block : List Nat) : List Nat :=
  let ws := extendSchedule (blockWords block) 48
  let h0 := hs.getD 0 0
  let h1 := hs.getD 1 0
  let h2 := hs.getD 2 0
  let h3 := hs.getD 3 0
  let h4 := hs.getD 4 0
  let h5 := hs.getD 5 0
  let h6 := hs.getD 6 0
  let h7 := hs.getD 7 0
  match shaRounds (ws.zip shaK) (h0, h1, h2, h3, h4, h5, h6, h7) with
  | (a, b, c, d, e, f, g, h) =>
      [(h0 + a) % M32, (h1 + b) % M32, (h2 + c) % M32, (h3 + d) % M32,
       (h4 + e) % M32, (h5 + f) % M32, (h6 + g) % M32, (h7 + h) % M32]

/-- The 8 final SHA-256 state words of a string's UTF-8 bytes. -/
def sha256Words (s : String) : List Nat :=
  (shaBlocks (shaPad (strBytes s))).foldl shaBlockStep shaH0

/-- One lowercase hex digit. -/
def hexDigit (n : Nat) : Char :=
  if n < 10 then Char.ofNat (48 + n) else Char.ofNat (87 + n)

/-- A 32-bit word as 8 lowercase hex characters. -/
def toHex8 (x : Nat) : String :=
  String.mk ((List.range 8).map (fun i => hexDigit ((x >>> (28 - 4 * i)) % 16)))

/-- `hashlib.sha256(s.encode()).hexdigest()`: 64 lowercase hex characters. -/
def sha256Hex (s : String) : String :=
  String.join ((sha256Words s).map toHex8)

/-- The first `n` characters of a string (Python's `s[:n]`). -/
def strTake (s : String) (n : Nat) : String :=
  String.mk (s.toList.take n)

/-- `hashlib.sha256(command.encode()).hexdigest()[:8]` — the content-addressed
node id of a command. -/
def sha8 (command : String) : String :=
  strTake (sha256Hex command) 8

/-! ## CausalAgent (`src/python/agents/causal_agent.py`)

The mutable state of a `CausalAgent` is the `networkx.DiGraph` (node list
with attribute dicts, plus edge list with a `relation` attribute) and the
`facts_db` registry.  `coherence_threshold` is set once in `__init__` and
never read, so it is not part of the state.  `nx.DiGraph` keeps nodes and
the out-edges of each node in insertion order, with at most one edge per
ordered pair (re-adding an edge overwrites its attributes). -/

/-- The state of a `CausalAgent`: graph nodes (insertion-ordered, unique
ids, each with an attribute dict), graph edges `(source, target, relation)`
(insertion-ordered, unique `(source, target)` pairs), and the fact
registry. -/
structure CausalAgent where
  graphNodes : List (String × Attrs)
  graphEdges : List (String × String × String)
  facts_db : List (String × Attrs)

/-- Ids of the graph nodes, in insertion order. -/
def CausalAgent.nodeIds (ag : CausalAgent) : List String :=
  ag.graphNodes.map Prod.fst

/-- Keys of the fact registry, in insertion order. -/
def CausalAgent.factIds (ag : CausalAgent) : List String :=
  ag.facts_db.map Prod.fst

/-- `G.add_node(n, **attrs)`: if the node exists its attribute dict is
updated in place, otherwise the node is appended. -/
def addNode (nodes : List (String × Attrs)) (n : String) (attrs : Attrs) :
    List (String × Attrs) :=
  match nodes with
  | [] => [(n, attrs)]
  | (k, old) :: rest =>
      if k = n then (k, dictUpdate old attrs) :: rest
      else (k, old) :: addNode rest n attrs

/-- Add a node with no attributes if it is absent (`nx.add_edge`
auto-materializes missing endpoints this way). -/
def ensureNode (nodes : List (String × Attrs)) (n : String) :
    List (String × Attrs) :=
  if (nodes.map Prod.fst).contains n then nodes else nodes ++ [(n, [])]

/-- Set the `relation` attribute of edge `(u, v)`, overwriting an existing
edge for the same ordered pair, else appending a new edge. -/
def setEdge (edges : List (String × String × String)) (u v rel : String) :
    List (String × String × String) :=
  match edges with
  | [] => [(u, v, rel)]
  | (a, b, r) :: rest =>
      if a = u ∧ b = v then (a, b, rel) :: rest
      else (a, b, r) :: setEdge rest u v rel

/-- `self.graph.add_edge(u, v, relation=rel)`. -/
def CausalAgent.add_edge (ag : CausalAgent) (u v rel : String) : CausalAgent :=
  { ag with
    graphNodes := ensureNode (ensureNode ag.graphNodes u) v
    graphEdges := setEdge ag.graphEdges u v rel }

/-- The three seed facts (with their attribute dicts) inserted by
`initialize_base_facts` (the source's name; shortened here), in source
order. -/
def base_facts : List (String × Attrs) :=
  [("mom_birthday",
    [("content", .str "Mom\x27s birthday is 2025-05-27"),
     ("timestamp", .str "2025-09-20T00:00:00Z"),
     ("type", .str "temporal"),
     ("attribution", .str "@AxiomHive")]),
   ("gym_move",
    [("content", .str "Planning gym membership and SF move"),
     ("timestamp", .str "2025-09-20T00:00:00Z"),
     ("type", .str "action"),
     ("attribution", .str "@devdollzai")]),
   ("ecosystem_bind",
    [("content", .str "AxiomHive ecosystem binding active"),
     ("timestamp", .str "2025-09-20T00:00:00Z"),
     ("type", .str "system"),
     ("attribution", .str "@AxiomHive @devdollzai")])]

/-- `CausalAgent.__init__`: empty graph and registry, then
`initialize_base_facts` inserts each seed fact into `facts_db` and the
graph. -/
def initAgent : CausalAgent :=
  base_facts.foldl
    (fun ag p =>
      { ag with
        facts_db := assocSet ag.facts_db p.1 p.2
        graphNodes := addNode ag.graphNodes p.1 p.2 })
    { graphNodes := [], graphEdges := [], facts_db := [] }

/-- Lines 56–63 of `build_4d_graph`: hash the command text to an 8-hex-char
node id and add the command node (the operation the spec names
`add_command_node`).  Returns the updated agent and the node id. -/
def CausalAgent.add_command_node (ag : CausalAgent) (command now : String) :
    CausalAgent × String :=
  let command_hash := sha8 command
  ({ ag with
     graphNodes := addNode ag.graphNodes command_hash
       [("content", .str command),
        ("timestamp", .str now),
        ("type", .str "command"),
        ("attribution", .str "@AxiomHive @devdollzai")] },
   command_hash)

/-- `_build_causal_relationships`: keyword rules over the lowercased command
text; every applicable rule fires. -/
def CausalAgent._build_causal_relationships (ag : CausalAgent)
    (node_id command : String) : CausalAgent :=
  let command_lower := pyLower command
  let ag1 :=
    if strIn "birthday" command_lower || strIn "date" command_lower then
      ag.add_edge node_id "mom_birthday" "temporal"
    else ag
  let ag2 :=
    if anyIn ["move", "plan", "gym", "sf"] command_lower then
      ag1.add_edge node_id "gym_move" "action"
    else ag1
  if anyIn ["ecosystem", "bind", "nexus", "4d"] command_lower then
    ag2.add_edge node_id "ecosystem_bind" "system"
  else ag2

/-- `_calculate_coherence`: `0.0` below 2 nodes, else
`min(edges / nodes, 1.0)`. -/
def CausalAgent._calculate_coherence (ag : CausalAgent) : ℚ :=
  if ag.graphNodes.length < 2 then 0
  else min ((ag.graphEdges.length : ℚ) / (ag.graphNodes.length : ℚ)) 1

/-- Python's `repr` of a string (quoted with `'`, no escaping needed for the
node ids that occur here). -/
def pyStrRepr (s : String) : String :=
  let q := String.singleton (Char.ofNat 39)
  q ++ s ++ q

/-- Python's `str` of a list of strings, which is what
`str(self.graph.nodes)` prints (a `NodeView` stringifies as the node list). -/
def pyListRepr (xs : List String) : String :=
  "[" ++ String.intercalate ", " (xs.map pyStrRepr) ++ "]"

/-- The record returned by `build_4d_graph`. -/
structure BuildResult where
  coherence : ℚ
  nodes : Nat
  edges : Nat
  graph_hash : String

/-- `build_4d_graph(command)`: add the command node, run the relationship
rules, and report coherence, node/edge counts, and a hash of the node
list. -/
def CausalAgent.build_4d_graph (ag : CausalAgent) (command now : String) :
    CausalAgent × BuildResult :=
  let (ag1, command_hash) := ag.add_command_node command now
  let ag2 := ag1._build_causal_relationships command_hash command
  let coherence := ag2._calculate_coherence
  (ag2,
   { coherence := coherence
     nodes := ag2.graphNodes.length
     edges := ag2.graphEdges.length
     graph_hash := sha8 (pyListRepr ag2.nodeIds) })

/-- Normalize one `integrate_facts` entry: a string becomes
`{"content": s}`, a dict is kept; any other value makes the `{**…}` splat
raise a `TypeError`. -/
def normalizeFact : PyVal → Option Attrs
  | .str s => some [("content", .str s)]
  | .dict d => some d
  | _ => none

/-- The loop body of `integrate_facts`: entries are processed in order; a
non-mapping entry raises, keeping the mutations already made. -/
def CausalAgent.integrateLoop (ag : CausalAgent) (now : String)
    (acc : List String) :
    List (String × PyVal) → CausalAgent × Except String (List String)
  | [] => (ag, .ok acc)
  | (fact_id, fact_content) :: rest =>
      match normalizeFact fact_content with
      | none => (ag, .error "TypeError: mapping required")
      | some d =>
          let attribution :=
            match assocGet d "attribution" with
            | some v => v
            | none => .str "@AxiomHive @devdollzai"
          let fact :=
            assocSet (assocSet d "timestamp" (.str now)) "attribution"
              attribution
          let ag1 :=
            { ag with
              facts_db := assocSet ag.facts_db fact_id fact
              graphNodes := addNode ag.graphNodes fact_id fact }
          ag1.integrateLoop now (acc ++ [fact_id]) rest

/-- `integrate_facts(facts_data)` over a mapping already known to be a dict:
normalizes each entry, overwrites registry and graph, and returns the
accepted ids in input order. -/
def CausalAgent.integrate_facts (ag : CausalAgent)
    (facts_data : List (String × PyVal)) (now : String) :
    CausalAgent × Except String (List String) :=
  ag.integrateLoop now [] facts_data

/-- `integrate_facts` on a dynamically typed payload: a non-mapping payload
fails at `facts_data.items()` before any mutation. -/
def CausalAgent.integrate_facts_py (ag : CausalAgent) (facts_data : PyVal)
    (now : String) : CausalAgent × Except String (List String) :=
  match facts_data with
  | .dict items => ag.integrate_facts items now
  | _ => (ag, .error "AttributeError: items")

/-- The record returned by `get_facts`. -/
structure FactsView where
  facts : List (String × Attrs)
  nodes : Nat
  edges : Nat
  coherence : ℚ
  timestamp : String

/-- `get_facts()`: the registry plus graph statistics (read-only). -/
def CausalAgent.get_facts (ag : CausalAgent) (now : String) : FactsView :=
  { facts := ag.facts_db
    nodes := ag.graphNodes.length
    edges := ag.graphEdges.length
    coherence := ag._calculate_coherence
    timestamp := now }

/-- Successors of `v` in edge-insertion order (`G.adj[v]`). -/
def CausalAgent.adj (ag : CausalAgent) (v : String) : List String :=
  (ag.graphEdges.filter (fun e => e.1 == v)).map (fun e => e.2.1)

/-- One BFS level of networkx's `_single_shortest_path`: extend `paths`
(an insertion-ordered dict node → path) with the unvisited successors of
each node of the current level, collecting the next level. -/
def bfsLevel (adj : String → List String) :
    List (String × List String) × List String → List String →
    List (String × List String) × List String
  | st, [] => st
  | st, v :: vs =>
      let st1 :=
        (adj v).foldl
          (fun (st : List (String × List String) × List String) w =>
            if (st.1.map Prod.fst).contains w then st
            else
              (st.1 ++ [(w, (assocGet st.1 v).getD [] ++ [w])],
               st.2 ++ [w]))
          st
      bfsLevel adj st1 vs

/-- The `while nextlevel and cutoff > level` loop of
`_single_shortest_path`; the fuel is `cutoff - level`. -/
def ssspLoop (adj : String → List String)
    (paths : List (String × List String)) (thislevel : List String) :
    Nat → List (String × List String)
  | 0 => paths
  | n + 1 =>
      if thislevel.isEmpty then paths
      else
        match bfsLevel adj (paths, []) thislevel with
        | (paths1, nextlevel) => ssspLoop adj paths1 nextlevel n

/-- `nx.single_source_shortest_path(G, source, cutoff)`: a dict mapping each
node reachable within `cutoff` hops to a shortest path from `source`,
starting with `source` itself, in BFS discovery order. -/
def CausalAgent.single_source_shortest_path (ag : CausalAgent)
    (source : String) (cutoff : Nat) : List (String × List String) :=
  ssspLoop ag.adj [(source, [source])] [source] cutoff

/-- One record of a causal-chain entry. -/
structure ChainRec where
  node : String
  data : Attrs
  relations : List Attrs

/-- The attribute dicts of the out-edges of `n`
(`[self.graph.edges[edge] for edge in self.graph.edges(node)]`). -/
def CausalAgent.outRelations (ag : CausalAgent) (n : String) : List Attrs :=
  (ag.graphEdges.filter (fun e => e.1 == n)).map
    (fun e => [("relation", PyVal.str e.2.2)])

/-- The inner loop of `get_causal_chain`.  Because the Python code iterates
the `single_source_shortest_path` dict itself, each "path" is a dict KEY (a
node-id string) and `for node in path` iterates its characters; looking up
`self.graph.nodes[node]` for a 1-character string raises `KeyError` unless
that character happens to be a node id. -/
def CausalAgent.chainOfKey (ag : CausalAgent) :
    List Char → Except String (List ChainRec)
  | [] => .ok []
  | c :: rest =>
      let nodeStr := String.singleton c
      match assocGet ag.graphNodes nodeStr with
      | none => .error ("KeyError: " ++ nodeStr)
      | some data =>
          match ag.chainOfKey rest with
          | .error e => .error e
          | .ok tail =>
              .ok ({ node := nodeStr, data := data,
                     relations := ag.outRelations nodeStr } :: tail)

/-- The outer loop of `get_causal_chain` over the dict keys. -/
def CausalAgent.chainsOfKeys (ag : CausalAgent) :
    List String → Except String (List (List ChainRec))
  | [] => .ok []
  | k :: rest =>
      match ag.chainOfKey k.toList with
      | .error e => .error e
      | .ok chain =>
          match ag.chainsOfKeys rest with
          | .error e => .error e
          | .ok cs => .ok (chain :: cs)

/-- `get_causal_chain(start_node, max_depth)`: `[]` when the start node is
absent; otherwise iterate the shortest-path dict (keys!) and build records
per character, raising `KeyError` on the first character that is not a node
id. -/
def CausalAgent.get_causal_chain (ag : CausalAgent) (start_node : String)
    (max_depth : Nat) : Except String (List (List ChainRec)) :=
  if (ag.graphNodes.map Prod.fst).contains start_node then
    ag.chainsOfKeys
      ((ag.single_source_shortest_path start_node max_depth).map Prod.fst)
  else
    .ok []

/-! ## CognitiveOrchestrator (`src/src/orchestrator.py`)

The mutable state is the `contexts` dict.  `decomposition_rules` is
assigned once in `__init__` from `_load_decomposition_rules` and never
written afterwards, so it is embedded as a constant; `coherence_threshold`
is never read. -/

/-- One per-context record.  The `last_command` / `last_processed` keys are
only added by `process`, hence the `Option`s; `last_command` stores whatever
value was passed (the source never checks its type before storing it). -/
structure Context where
  created : String
  commands_processed : Nat
  coherence_score : ℚ
  last_command : Option PyVal
  last_processed : Option String

/-- The state of a `CognitiveOrchestrator`: the contexts dict. -/
structure CognitiveOrchestrator where
  contexts : List (String × Context)

/-- `_load_decomposition_rules`: the fixed 5-item base list per command
type. -/
def _load_decomposition_rules : List (String × List String) :=
  [("planning",
    ["Break down into actionable steps",
     "Identify dependencies and resources",
     "Create timeline and milestones",
     "Define success criteria",
     "Map potential risks and mitigations"]),
   ("analysis",
    ["Gather relevant information",
     "Identify key factors and variables",
     "Analyze relationships and patterns",
     "Draw conclusions and insights",
     "Provide recommendations"]),
   ("integration",
    ["Map existing ecosystem components",
     "Identify integration points",
     "Define data flow and interfaces",
     "Plan migration strategy",
     "Test integration scenarios"]),
   ("temporal",
    ["Establish time-based relationships",
     "Create temporal sequences",
     "Map cause-effect chains",
     "Define temporal constraints",
     "Plan scheduling and timing"])]

/-- `_classify_command` on the already-lowercased command: first matching
keyword group wins, in source order. -/
def _classify_command (command : String) : String :=
  if anyIn ["plan", "move", "schedule", "organize"] command then "planning"
  else if anyIn ["analyze", "examine", "study", "review"] command then
    "analysis"
  else if anyIn ["integrate", "combine", "merge", "connect"] command then
    "integration"
  else if anyIn ["when", "time", "date", "schedule"] command then "temporal"
  else "generic"

/-- `_add_temporal_dimension`: copy the base items and append per keyword. -/
def _add_temporal_dimension (command : String) (base_items : List String) :
    List String :=
  let t1 :=
    if strIn "birthday" command then
      base_items ++ ["Schedule around 2025-05-27", "Plan celebration activities"]
    else base_items
  let t2 :=
    if anyIn ["move", "relocate", "transfer"] command then
      t1 ++ ["Create moving timeline", "Schedule packing and transportation"]
    else t1
  if strIn "gym" command then
    t2 ++ ["Research gym membership options", "Schedule gym visits and routines"]
  else t2

/-- `_add_causal_dimension`. -/
def _add_causal_dimension (command : String) (temporal_items : List String) :
    List String :=
  let c1 :=
    if strIn "ecosystem" command || strIn "bind" command then
      temporal_items ++
        ["Map current ecosystem state",
         "Identify binding requirements",
         "Establish causal relationships",
         "Test binding integrity"]
    else temporal_items
  if strIn "facts" command then
    c1 ++
      ["Verify fact accuracy",
       "Establish fact relationships",
       "Integrate with existing knowledge",
       "Update causal graph"]
  else c1

/-- `_add_spatial_dimension`. -/
def _add_spatial_dimension (command : String) (causal_items : List String) :
    List String :=
  let s1 :=
    if strIn "sf" command || strIn "san francisco" command then
      causal_items ++
        ["Research SF neighborhoods",
         "Map commute routes",
         "Locate essential services",
         "Plan area exploration"]
    else causal_items
  if strIn "move" command then
    s1 ++
      ["Assess space requirements",
       "Plan furniture placement",
       "Map utility connections",
       "Design room layouts"]
  else s1

/-- `_generic_decomposition`: 5 templated strings embedding the original
command text. -/
def _generic_decomposition (command : String) : List String :=
  ["Analyze: " ++ command,
   "Break down requirements for: " ++ command,
   "Identify resources needed for: " ++ command,
   "Create action plan for: " ++ command,
   "Define success metrics for: " ++ command]

/-- `_decompose_4d`: classify, then either expand the class's base list
through the three dimensions, or fall back to the generic templates. -/
def _decompose_4d (command : String) : List String :=
  let command_lower := pyLower command
  let command_type := _classify_command command_lower
  match assocGet _load_decomposition_rules command_type with
  | some base_rules =>
      let temporal_items := _add_temporal_dimension command_lower base_rules
      let causal_items := _add_causal_dimension command_lower temporal_items
      _add_spatial_dimension command_lower causal_items
  | none => _generic_decomposition command

/-- Round-half-to-even to an integer (the tie rule of Python's `round`; no
value in this development ever hits the tie case). -/
def roundHalfEven (x : ℚ) : ℤ :=
  let f := ⌊x⌋
  let r := x - (f : ℚ)
  if r < 1 / 2 then f
  else if 1 / 2 < r then f + 1
  else if f % 2 = 0 then f else f + 1

/-- Python's `round(x, 3)`. -/
def pyRound3 (x : ℚ) : ℚ :=
  (roundHalfEven (x * 1000) : ℚ) / 1000

/-- `_calculate_context_coherence`:
`round(min(commands_processed * item_count / 10.0, 1.0), 3)`, or `0.0` for a
missing context id. -/
def CognitiveOrchestrator._calculate_context_coherence
    (o : CognitiveOrchestrator) (context_id : String)
    (decomposed_items : List String) : ℚ :=
  match assocGet o.contexts context_id with
  | none => 0
  | some context =>
      pyRound3
        (min
          (((context.commands_processed * decomposed_items.length : Nat) : ℚ)
            / 10)
          1)

/-- The state mutations at the top of `process`, which happen before
`_decompose_4d` is called (and therefore also when the command later turns
out not to be a string): lazily create the context, then bump
`commands_processed` and set `last_command` / `last_processed`. -/
def CognitiveOrchestrator.processMutate (o : CognitiveOrchestrator)
    (context_id now : String) (command : PyVal) : CognitiveOrchestrator :=
  let o1 :=
    if (o.contexts.map Prod.fst).contains context_id then o
    else
      { contexts :=
          o.contexts ++
            [(context_id,
              { created := now, commands_processed := 0,
                coherence_score := 0, last_command := none,
                last_processed := none })] }
  { contexts :=
      assocModify o1.contexts context_id
        (fun c =>
          { c with
            commands_processed := c.commands_processed + 1
            last_command := some command
            last_processed := some now }) }

/-- `process(command, context_id)` for a string command: mutate the context,
decompose, store the recomputed coherence, and return the decomposition. -/
def CognitiveOrchestrator.process (o : CognitiveOrchestrator)
    (command context_id now : String) : CognitiveOrchestrator × List String :=
  let o1 := o.processMutate context_id now (.str command)
  let decomposed := _decompose_4d command
  let coherence := o1._calculate_context_coherence context_id decomposed
  ({ contexts :=
       assocModify o1.contexts context_id
         (fun c => { c with coherence_score := coherence }) },
   decomposed)

/-- `process` on a dynamically typed command: the context mutations precede
`_decompose_4d`, whose `command.lower()` raises `AttributeError` for any
non-string, so the call fails with the context map already mutated. -/
def CognitiveOrchestrator.process_py (o : CognitiveOrchestrator)
    (command : PyVal) (context_id now : String) :
    CognitiveOrchestrator × Except String (List String) :=
  match command with
  | .str s =>
      match o.process s context_id now with
      | (o1, r) => (o1, .ok r)
  | _ => (o.processMutate context_id now command, .error "AttributeError: lower")

/-- `get_context(id)`: the record, or `None` for an unknown id. -/
def CognitiveOrchestrator.get_context (o : CognitiveOrchestrator)
    (context_id : String) : Option Context :=
  assocGet o.contexts context_id

/-- The record returned by `list_contexts`. -/
structure ContextsView where
  contexts : List (String × Context)
  total_contexts : Nat
  timestamp : String

/-- `list_contexts()`. -/
def CognitiveOrchestrator.list_contexts (o : CognitiveOrchestrator)
    (now : String) : ContextsView :=
  { contexts := o.contexts
    total_contexts := o.contexts.length
    timestamp := now }

/-- `clear_context(id)`: delete and return `True` if present, else
`False`. -/
def CognitiveOrchestrator.clear_context (o : CognitiveOrchestrator)
    (context_id : String) : CognitiveOrchestrator × Bool :=
  if (o.contexts.map Prod.fst).contains context_id then
    ({ contexts := o.contexts.filter (fun p => p.1 != context_id) }, true)
  else (o, false)

/-- A freshly constructed orchestrator (`__init__`). -/
def initOrch : CognitiveOrchestrator :=
  { contexts := [] }

/-- A store holding one context, used as a concrete witness state. -/
def sampleOrch : CognitiveOrchestrator :=
  { contexts :=
      [("c",
        { created := "T", commands_processed := 1, coherence_score := 0,
          last_command := some (.str "zzz"), last_processed := some "T" })] }

/-! ## Reachable agent states

`get_facts` and `get_causal_chain` read the state without mutating it (the
latter can raise, but raises before any write), so the states reachable by
any sequence of the four public operations are exactly those generated by
construction, `build_4d_graph`, and `integrate_facts`. -/

/-- The agent states reachable from construction by any sequence of
`build_4d_graph` and `integrate_facts` calls (with arbitrary payloads and
clock readings). -/
inductive Reachable : CausalAgent → Prop where
  | init : Reachable initAgent
  | build (command now : String) {ag : CausalAgent} :
      Reachable ag → Reachable (ag.build_4d_graph command now).1
  | integrate (facts_data : PyVal) (now : String) {ag : CausalAgent} :
      Reachable ag → Reachable (ag.integrate_facts_py facts_data now).1

/-- Is the Python value a string? -/
def PyVal.isStr : PyVal → Bool
  | .str _ => true
  | _ => false

/-- Is the Python value a dict? -/
def PyVal.isDict : PyVal → Bool
  | .dict _ => true
  | _ => false

/-! ## Association-list lemmas -/

theorem assocGet_assocModify {α : Type} (d : List (String × α)) (k : String)
    (f : α → α) :
    assocGet (assocModify d k f) k = (assocGet d k).map f := by
  induction d with
  | nil => rfl
  | cons p rest ih =>
      obtain ⟨k', v⟩ := p
      by_cases h : k' = k
      · simp [assocModify, assocGet, h]
      · simp [assocModify, assocGet, h, ih]

theorem assocGet_append_single {α : Type} (d : List (String × α)) (k : String)
    (v : α) (h : assocGet d k = none) :
    assocGet (d ++ [(k, v)]) k = some v := by
  induction d with
  | nil => simp [assocGet]
  | cons p rest ih =>
      obtain ⟨k', v'⟩ := p
      by_cases hk : k' = k
      · simp [assocGet, hk] at h
      · simp [assocGet, hk] at h ⊢
        exact ih h

theorem assocGet_isSome_of_mem {α : Type} {d : List (String × α)} {k : String}
    (h : k ∈ d.map Prod.fst) : ∃ v, assocGet d k = some v := by
  induction d with
  | nil => simp at h
  | cons p rest ih =>
      obtain ⟨k', v'⟩ := p
      by_cases hk : k' = k
      · exact ⟨v', by simp [assocGet, hk]⟩
      · have hm : k ∈ rest.map Prod.fst := by
          simp at h
          rcases h with h | h
          · exact absurd h.symm hk
          · simpa using h
        obtain ⟨v, hv⟩ := ih hm
        exact ⟨v, by simp [assocGet, hk, hv]⟩

theorem assocGet_eq_none_of_not_mem {α : Type} {d : List (String × α)}
    {k : String} (h : ¬ k ∈ d.map Prod.fst) : assocGet d k = none := by
  induction d with
  | nil => rfl
  | cons p rest ih =>
      obtain ⟨k', v'⟩ := p
      simp at h
      have hk : ¬ k' = k := fun hh => h.1 hh.symm
      simp [assocGet, hk]
      exact ih (by simpa using h.2)

theorem mem_map_fst_assocSet {α : Type} (d : List (String × α)) (key k : String)
    (v : α) :
    k ∈ (assocSet d key v).map Prod.fst ↔ k = key ∨ k ∈ d.map Prod.fst := by
  induction d with
  | nil => simp [assocSet]
  | cons p rest ih =>
      obtain ⟨k', v'⟩ := p
      by_cases h : k' = key
      · subst h
        simp [assocSet]
      · simp [assocSet, h, ih]
        tauto

/-! ## Graph-node lemmas -/

theorem mem_map_fst_addNode (nodes : List (String × Attrs)) (n k : String)
    (attrs : Attrs) :
    k ∈ (addNode nodes n attrs).map Prod.fst ↔ k = n ∨ k ∈ nodes.map Prod.fst := by
  induction nodes with
  | nil => simp [addNode]
  | cons p rest ih =>
      obtain ⟨k', old⟩ := p
      by_cases h : k' = n
      · subst h
        simp [addNode]
      · simp [addNode, h, ih]
        tauto

theorem mem_map_fst_ensureNode (nodes : List (String × Attrs)) (n k : String)
    (h : k ∈ nodes.map Prod.fst) : k ∈ (ensureNode nodes n).map Prod.fst := by
  unfold ensureNode
  split
  · exact h
  · rw [List.map_append]
    exact List.mem_append_left _ h

theorem addNode_addNode_length (nodes : List (String × Attrs)) (n : String)
    (a a' : Attrs) :
    (addNode (addNode nodes n a) n a').length = (addNode nodes n a).length := by
  induction nodes with
  | nil => simp [addNode]
  | cons p rest ih =>
      obtain ⟨k, old⟩ := p
      by_cases h : k = n
      · simp [addNode, h]
      · simp [addNode, h, ih]

theorem assocGet_filter_ne {α : Type} (d : List (String × α)) (k : String) :
    assocGet (d.filter (fun p => p.1 != k)) k = none := by
  induction d with
  | nil => rfl
  | cons p rest ih =>
      obtain ⟨k', v'⟩ := p
      by_cases h : k' = k
      · subst h
        simpa [List.filter_cons] using ih
      · have hb : (k' != k) = true := by simp [h]
        simpa [List.filter_cons, hb, assocGet, h] using ih

theorem filter_ne_eq_self_of_not_mem {α : Type} (d : List (String × α))
    (k : String) (h : ¬ k ∈ d.map Prod.fst) :
    d.filter (fun p => p.1 != k) = d := by
  induction d with
  | nil => rfl
  | cons p rest ih =>
      obtain ⟨k', v'⟩ := p
      simp at h
      have hk : k' ≠ k := fun hh => h.1 hh.symm
      have hb : (k' != k) = true := by simp [hk]
      have hrest : rest.filter (fun p => p.1 != k) = rest :=
        ih (by simpa using h.2)
      simp [List.filter_cons, hb, hrest]

/-- The context lookup that `processMutate` guarantees: after the up-front
mutations of `process`, the context id is bound to a record whose counter is
one more than before (or `1` for a fresh context), recording the raw command
value and the clock. -/
theorem processMutate_get (o : CognitiveOrchestrator) (cid now : String)
    (cmd : PyVal) :
    ∃ c, assocGet (o.processMutate cid now cmd).contexts cid = some c ∧
      c.commands_processed =
        (match assocGet o.contexts cid with
         | some c0 => c0.commands_processed + 1
         | none => 1) ∧
      c.last_command = some cmd ∧ c.last_processed = some now := by
  unfold CognitiveOrchestrator.processMutate
  by_cases h : (o.contexts.map Prod.fst).contains cid = true
  · have hm : cid ∈ o.contexts.map Prod.fst := by simpa using h
    obtain ⟨c0, hc0⟩ := assocGet_isSome_of_mem hm
    refine ⟨{ c0 with
              commands_processed := c0.commands_processed + 1
              last_command := some cmd
              last_processed := some now }, ?_, ?_, rfl, rfl⟩
    · rw [if_pos h, assocGet_assocModify, hc0]
      rfl
    · rw [hc0]
  · have hm : ¬ cid ∈ o.contexts.map Prod.fst := by simpa using h
    have hc0 : assocGet o.contexts cid = none := assocGet_eq_none_of_not_mem hm
    rw [if_neg h]
    refine ⟨{ created := now, commands_processed := 1, coherence_score := 0,
              last_command := some cmd,
              last_processed := some now }, ?_, ?_, rfl, rfl⟩
    · rw [assocGet_assocModify, assocGet_append_single _ _ _ hc0]
      rfl
    · rw [hc0]

/-! ## Claims -/

/-- C5: for every graph state, `coherence()` equals
`min(edge_count / node_count, 1.0)` when the graph has at least 2 nodes, and
equals `0.0` when the graph has 0 or 1 nodes. -/
theorem coherence_formula (ag : CausalAgent) :
    (2 ≤ ag.graphNodes.length →
      ag._calculate_coherence =
        min ((ag.graphEdges.length : ℚ) / (ag.graphNodes.length : ℚ)) 1) ∧
    (ag.graphNodes.length < 2 → ag._calculate_coherence = 0) := by
  constructor
  · intro h
    rw [CausalAgent._calculate_coherence, if_neg (by omega)]
  · intro h
    rw [CausalAgent._calculate_coherence, if_pos h]

/-- Witness for C5: the fresh agent has 3 nodes and 0 edges, so its
coherence is `min(0/3, 1)`; an empty graph has coherence `0`. -/
theorem coherence_formula_witness :
    initAgent._calculate_coherence =
      min ((initAgent.graphEdges.length : ℚ) / (initAgent.graphNodes.length : ℚ)) 1 ∧
    (CausalAgent.mk [] [] [])._calculate_coherence = 0 :=
  ⟨(coherence_formula initAgent).1 (by decide),
   (coherence_formula (CausalAgent.mk [] [] [])).2 (by decide)⟩

set_option maxRecDepth 10000 in
/-- C7: on a freshly constructed agent, `build_4d_graph "plan SF move"` adds
exactly one edge — from the new command node to `gym_move` with relation
`action` — and the returned coherence is `1/4`. -/
theorem build_plan_sf_move (now : String) :
    initAgent.graphEdges = [] ∧
    (initAgent.build_4d_graph "plan SF move" now).1.graphEdges =
      [(sha8 "plan SF move", "gym_move", "action")] ∧
    (initAgent.build_4d_graph "plan SF move" now).2.coherence = 1 / 4 := by
  refine ⟨rfl, rfl, ?_⟩
  have h : (initAgent.build_4d_graph "plan SF move" now).2.coherence =
      min ((1 : ℚ) / 4) 1 := rfl
  rw [h, min_eq_left (by norm_num)]

/-- C3 (code bug): `get_causal_chain` iterates the
`single_source_shortest_path` dict itself, so each "path" is a node-id key
string and each "node" one of its characters; on the fresh agent with the
present start id `mom_birthday` the first character `m` is not a node and
the call raises `KeyError` instead of returning path records.  An absent
start id does return `[]` as claimed. -/
theorem causal_chain_keyerror :
    initAgent.get_causal_chain "mom_birthday" 3 =
      Except.error "KeyError: m" ∧
    initAgent.get_causal_chain "unknown_id" 3 = Except.ok [] :=
  ⟨rfl, rfl⟩

/-- C8: `add_command_node` is idempotent — repeating it with the same text
yields the same node id (the first 8 hex characters of the SHA-256 of the
command text) and leaves the node count unchanged. -/
theorem add_command_node_idempotent (ag : CausalAgent)
    (command now now' : String) :
    (ag.add_command_node command now).2 = sha8 command ∧
    ((ag.add_command_node command now).1.add_command_node command now').2 =
      (ag.add_command_node command now).2 ∧
    ((ag.add_command_node command now).1.add_command_node command
        now').1.graphNodes.length =
      (ag.add_command_node command now).1.graphNodes.length := by
  refine ⟨rfl, rfl, ?_⟩
  exact addNode_addNode_length ag.graphNodes (sha8 command) _ _

/-- C9: `clear_context` returns `true` exactly once per existing context
(the context then being absent, a second call returns `false`) and `false`
for ids that were never created, leaving the state unchanged. -/
theorem clear_context_once (o : CognitiveOrchestrator) (cid : String) :
    (cid ∈ o.contexts.map Prod.fst →
      (o.clear_context cid).2 = true ∧
      ((o.clear_context cid).1.clear_context cid).2 = false) ∧
    (¬ cid ∈ o.contexts.map Prod.fst →
      (o.clear_context cid).2 = false ∧ (o.clear_context cid).1 = o) := by
  constructor
  · intro h
    have hb : (o.contexts.map Prod.fst).contains cid = true := by simpa using h
    unfold CognitiveOrchestrator.clear_context
    rw [if_pos hb]
    refine ⟨rfl, ?_⟩
    have hbf : ((o.contexts.filter (fun p => p.1 != cid)).map Prod.fst).contains
        cid = false := by
      simp
    simp only [hbf]
    rfl
  · intro h
    have hb : (o.contexts.map Prod.fst).contains cid = false := by simpa using h
    unfold CognitiveOrchestrator.clear_context
    simp only [hb]
    exact ⟨rfl, rfl⟩

/-- Witness for C9: a store holding one context `c`: the first clear
returns `true`, the second `false`; clearing the never-created id `z` on
the fresh store returns `false` and changes nothing. -/
theorem clear_context_once_witness :
    ((sampleOrch.clear_context "c").2 = true ∧
      ((sampleOrch.clear_context "c").1.clear_context "c").2 = false) ∧
    ((initOrch.clear_context "z").2 = false ∧
      (initOrch.clear_context "z").1 = initOrch) :=
  ⟨(clear_context_once sampleOrch "c").1 (by decide),
   (clear_context_once initOrch "z").2 (by decide)⟩

/-- C2 counterexample: on a fresh orchestrator, `process` with the
non-string command `0` is rejected (raises), but the context map is NOT
unchanged — the context has already been created and counted. -/
theorem invalid_input_counterexample :
    (initOrch.process_py (.int 0) "default" "T").2 =
      Except.error "AttributeError: lower" ∧
    (initOrch.process_py (.int 0) "default" "T").1.contexts.length ≠
      initOrch.contexts.length :=
  ⟨rfl, by decide⟩

/-- C2 (amended): a facts payload that is not a mapping is rejected by
`integrate_facts` with no state mutation; a non-string command makes
`process` raise, but only after the context map has been mutated — the
context is created (or its counter incremented) and records the raw
value. -/
theorem invalid_input_behavior :
    (∀ (ag : CausalAgent) (payload : PyVal) (now : String),
      payload.isDict = false →
      ag.integrate_facts_py payload now =
        (ag, Except.error "AttributeError: items")) ∧
    (∀ (o : CognitiveOrchestrator) (command : PyVal) (cid now : String),
      command.isStr = false →
      (o.process_py command cid now).2 =
        Except.error "AttributeError: lower" ∧
      ∃ c, assocGet (o.process_py command cid now).1.contexts cid = some c ∧
        c.commands_processed =
          (match assocGet o.contexts cid with
           | some c0 => c0.commands_processed + 1
           | none => 1) ∧
        c.last_command = some command) := by
  constructor
  · intro ag payload now h
    cases payload with
    | str s => rfl
    | dict d => cases h
    | int n => rfl
    | list l => rfl
  · intro o command cid now h
    have hmut : (o.process_py command cid now).1 =
        o.processMutate cid now command ∧
        (o.process_py command cid now).2 =
          Except.error "AttributeError: lower" := by
      cases command with
      | str s => cases h
      | int n => exact ⟨rfl, rfl⟩
      | dict d => exact ⟨rfl, rfl⟩
      | list l => exact ⟨rfl, rfl⟩
    obtain ⟨c, hc, hcp, hlc, _⟩ := processMutate_get o cid now command
    refine ⟨hmut.2, c, ?_, hcp, hlc⟩
    rw [hmut.1]
    exact hc

/-! ## Decomposition lemmas (for C4 and C6) -/

theorem isPrefixOf_self (l : List Char) : l.isPrefixOf l = true := by
  induction l with
  | nil => rfl
  | cons c t ih => simp [List.isPrefixOf, ih]

theorem listSub_append (pre s : List Char) : listSub s (pre ++ s) = true := by
  induction pre with
  | nil =>
      cases s with
      | nil => rfl
      | cons c t => simp [listSub, isPrefixOf_self]
  | cons p rest ih => simp [listSub, ih]

theorem toList_append (s t : String) : (s ++ t).toList = s.toList ++ t.toList := by
  obtain ⟨d⟩ := s
  obtain ⟨e⟩ := t
  rfl

theorem strIn_append (p s : String) : strIn s (p ++ s) = true := by
  unfold strIn
  rw [toList_append]
  exact listSub_append p.toList s.toList

theorem length_le_temporal (c : String) (items : List String) :
    items.length ≤ (_add_temporal_dimension c items).length := by
  unfold _add_temporal_dimension
  dsimp only
  split <;> split <;> split <;> simp

theorem length_le_causal (c : String) (items : List String) :
    items.length ≤ (_add_causal_dimension c items).length := by
  unfold _add_causal_dimension
  dsimp only
  split <;> split <;> simp

theorem length_le_spatial (c : String) (items : List String) :
    items.length ≤ (_add_spatial_dimension c items).length := by
  unfold _add_spatial_dimension
  dsimp only
  split <;> split <;> simp

theorem assocGet_value {α : Type} (P : α → Prop) :
    ∀ (d : List (String × α)) (k : String) (b : α),
      (∀ p ∈ d, P p.2) → assocGet d k = some b → P b := by
  intro d
  induction d with
  | nil =>
      intro k b _ hh
      cases hh
  | cons p rest ih =>
      intro k b hall hh
      obtain ⟨k', v⟩ := p
      rw [assocGet] at hh
      by_cases hk : k' = k
      · rw [if_pos hk] at hh
        cases hh
        exact hall (k', b) (by simp)
      · rw [if_neg hk] at hh
        exact ih k b (fun q hq => hall q (List.mem_cons_of_mem _ hq)) hh

theorem rules_value_length {k : String} {b : List String}
    (h : assocGet _load_decomposition_rules k = some b) : b.length = 5 :=
  assocGet_value (fun l => l.length = 5) _load_decomposition_rules k b
    (by decide) h

theorem decompose_matches (command : String) :
    _decompose_4d command =
      match assocGet _load_decomposition_rules
          (_classify_command (pyLower command)) with
      | some base_rules =>
          _add_spatial_dimension (pyLower command)
            (_add_causal_dimension (pyLower command)
              (_add_temporal_dimension (pyLower command) base_rules))
      | none => _generic_decomposition command := rfl

theorem decompose_pos (command : String) : 0 < (_decompose_4d command).length := by
  rw [decompose_matches]
  cases h : assocGet _load_decomposition_rules
      (_classify_command (pyLower command)) with
  | none => simp [_generic_decomposition]
  | some base =>
      simp only [h]
      have hb : base.length = 5 := rules_value_length h
      have h1 := length_le_temporal (pyLower command) base
      have h2 := length_le_causal (pyLower command)
        (_add_temporal_dimension (pyLower command) base)
      have h3 := length_le_spatial (pyLower command)
        (_add_causal_dimension (pyLower command)
          (_add_temporal_dimension (pyLower command) base))
      omega

theorem decompose_generic (command : String)
    (h : _classify_command (pyLower command) = "generic") :
    _decompose_4d command = _generic_decomposition command := by
  rw [decompose_matches, h]
  rfl

theorem calc_coherence_eq (o : CognitiveOrchestrator) (cid : String)
    (items : List String) {c0 : Context}
    (h : assocGet o.contexts cid = some c0) :
    o._calculate_context_coherence cid items =
      pyRound3 (min
        (((c0.commands_processed * items.length : Nat) : ℚ) / 10) 1) := by
  unfold CognitiveOrchestrator._calculate_context_coherence
  rw [h]

/-- C4: `process` succeeds on every string command (the result is a
non-empty ordered list); a command classified `generic` (no classifier
keyword matches, e.g. the empty string) yields exactly the 5 templated
strings, each embedding the literal command text. -/
theorem process_never_fails (o : CognitiveOrchestrator)
    (command context_id now : String) :
    0 < (o.process command context_id now).2.length ∧
    (_classify_command (pyLower command) = "generic" →
      (o.process command context_id now).2 = _generic_decomposition command ∧
      (o.process command context_id now).2.length = 5 ∧
      ∀ s ∈ (o.process command context_id now).2, strIn command s = true) := by
  have hr : (o.process command context_id now).2 = _decompose_4d command := rfl
  constructor
  · rw [hr]
    exact decompose_pos command
  · intro h
    rw [hr, decompose_generic command h]
    refine ⟨rfl, rfl, ?_⟩
    intro s hs
    simp [_generic_decomposition] at hs
    rcases hs with h1 | h1 | h1 | h1 | h1 <;> subst h1 <;>
      exact strIn_append _ command

/-- Witness for C4: the empty command matches no classifier keyword. -/
theorem process_never_fails_witness :
    0 < (initOrch.process "" "default" "T").2.length ∧
    ((initOrch.process "" "default" "T").2 = _generic_decomposition "" ∧
      (initOrch.process "" "default" "T").2.length = 5 ∧
      ∀ s ∈ (initOrch.process "" "default" "T").2, strIn "" s = true) :=
  ⟨(process_never_fails initOrch "" "default" "T").1,
   (process_never_fails initOrch "" "default" "T").2 rfl⟩

/-- C6: after every `process` call the context's `coherence_score` equals
`round(min(commands_processed * len(result) / 10.0, 1.0), 3)` (with the
incremented counter), and in particular this is `1.0` at
`commands_processed = 2` with a length-5 decomposition. -/
theorem process_updates_coherence (o : CognitiveOrchestrator)
    (command cid now : String) :
    (∃ c, assocGet (o.process command cid now).1.contexts cid = some c ∧
      c.coherence_score =
        pyRound3 (min
          (((c.commands_processed *
              (o.process command cid now).2.length : Nat) : ℚ) / 10) 1)) ∧
    pyRound3 (min (((2 * 5 : Nat) : ℚ) / 10) 1) = 1 := by
  constructor
  · obtain ⟨c0, hc0, _, _, _⟩ := processMutate_get o cid now (.str command)
    have hproc : (o.process command cid now).1.contexts =
        assocModify (o.processMutate cid now (.str command)).contexts cid
          (fun c =>
            { c with
              coherence_score :=
                ((o.processMutate cid
                    now (.str command))._calculate_context_coherence
                  cid (_decompose_4d command)) }) := rfl
    have hres : (o.process command cid now).2 = _decompose_4d command := rfl
    rw [hproc, assocGet_assocModify, hc0]
    refine ⟨_, rfl, ?_⟩
    dsimp only
    rw [calc_coherence_eq _ _ _ hc0, hres]
  · have h10 : (((2 * 5 : Nat) : ℚ) / 10) = 1 := by norm_num
    rw [h10, min_self]
    unfold pyRound3 roundHalfEven
    rw [show ((1 : ℚ) * 1000) = ((1000 : ℤ) : ℚ) by norm_num,
      Int.floor_intCast]
    norm_num

/-- Witness for C2 (amended): a concrete non-mapping payload and a concrete
non-string command. -/
theorem invalid_input_behavior_witness :
    initAgent.integrate_facts_py (.int 3) "T" =
      (initAgent, Except.error "AttributeError: items") ∧
    ((initOrch.process_py (.list []) "d" "T").2 =
        Except.error "AttributeError: lower" ∧
      ∃ c, assocGet (initOrch.process_py (.list []) "d" "T").1.contexts "d" =
          some c ∧
        c.commands_processed =
          (match assocGet initOrch.contexts "d" with
           | some c0 => c0.commands_processed + 1
           | none => 1) ∧
        c.last_command = some (.list [])) :=
  ⟨invalid_input_behavior.1 initAgent (.int 3) "T" rfl,
   invalid_input_behavior.2 initOrch (.list []) "d" "T" rfl⟩

/-! ## Reachability invariants (C1 and C10) -/

theorem setEdge_targets (edges : List (String × String × String))
    (u v rel : String) (P : String → Prop)
    (hP : ∀ e ∈ edges, P e.2.1) (hv : P v) :
    ∀ e ∈ setEdge edges u v rel, P e.2.1 := by
  induction edges with
  | nil =>
      intro e he
      simp [setEdge] at he
      subst he
      exact hv
  | cons q rest ih =>
      obtain ⟨a, b, r⟩ := q
      intro e he
      by_cases hab : a = u ∧ b = v
      · rw [setEdge, if_pos hab] at he
        rcases List.mem_cons.mp he with h | h
        · subst h
          exact hab.2 ▸ hv
        · exact hP e (List.mem_cons_of_mem _ h)
      · rw [setEdge, if_neg hab] at he
        rcases List.mem_cons.mp he with h | h
        · subst h
          exact hP (a, b, r) (by simp)
        · exact ih (fun q hq => hP q (List.mem_cons_of_mem _ hq)) e h

theorem add_edge_targets (ag : CausalAgent) (u v rel : String)
    (P : String → Prop) (hP : ∀ e ∈ ag.graphEdges, P e.2.1) (hv : P v) :
    ∀ e ∈ (ag.add_edge u v rel).graphEdges, P e.2.1 :=
  setEdge_targets ag.graphEdges u v rel P hP hv

theorem buildCausal_edge_targets (ag : CausalAgent) (nid c : String)
    (P : String → Prop) (hP : ∀ e ∈ ag.graphEdges, P e.2.1)
    (h1 : P "mom_birthday") (h2 : P "gym_move") (h3 : P "ecosystem_bind") :
    ∀ e ∈ (ag._build_causal_relationships nid c).graphEdges, P e.2.1 := by
  unfold CausalAgent._build_causal_relationships
  dsimp only
  have step : ∀ (b : Bool) (a : CausalAgent) (v rel : String),
      (∀ e ∈ a.graphEdges, P e.2.1) → P v →
      ∀ e ∈ (if b then a.add_edge nid v rel else a).graphEdges, P e.2.1 := by
    intro b a v rel ha hv
    cases b
    · simpa using ha
    · simpa using add_edge_targets a nid v rel P ha hv
  exact step _ _ _ _ (step _ _ _ _ (step _ _ _ _ hP h1) h2) h3

theorem buildCausal_facts (ag : CausalAgent) (nid c : String) :
    (ag._build_causal_relationships nid c).facts_db = ag.facts_db := by
  unfold CausalAgent._build_causal_relationships
  dsimp only
  split <;> split <;> split <;> rfl

theorem build_facts_db (ag : CausalAgent) (c t : String) :
    ((ag.build_4d_graph c t).1).facts_db = ag.facts_db :=
  buildCausal_facts (ag.add_command_node c t).1 (sha8 c) c

theorem add_edge_nodes_mono (ag : CausalAgent) (u v rel k : String)
    (h : k ∈ ag.nodeIds) : k ∈ (ag.add_edge u v rel).nodeIds :=
  mem_map_fst_ensureNode _ _ _ (mem_map_fst_ensureNode _ _ _ h)

theorem buildCausal_nodes_mono (ag : CausalAgent) (nid c k : String)
    (h : k ∈ ag.nodeIds) : k ∈ (ag._build_causal_relationships nid c).nodeIds := by
  unfold CausalAgent._build_causal_relationships
  dsimp only
  have step : ∀ (b : Bool) (a : CausalAgent) (v rel : String),
      k ∈ a.nodeIds → k ∈ (if b then a.add_edge nid v rel else a).nodeIds := by
    intro b a v rel ha
    cases b
    · simpa using ha
    · simpa using add_edge_nodes_mono a nid v rel k ha
  exact step _ _ _ _ (step _ _ _ _ (step _ _ _ _ h))

theorem build_nodes_mono (ag : CausalAgent) (c t k : String)
    (h : k ∈ ag.nodeIds) : k ∈ ((ag.build_4d_graph c t).1).nodeIds := by
  have h1 : k ∈ ((ag.add_command_node c t).1).nodeIds :=
    (mem_map_fst_addNode ag.graphNodes (sha8 c) k _).mpr (Or.inr h)
  exact buildCausal_nodes_mono (ag.add_command_node c t).1 (sha8 c) c k h1

theorem integrateLoop_edges (now : String) :
    ∀ (items : List (String × PyVal)) (ag : CausalAgent) (acc : List String),
      ((ag.integrateLoop now acc items).1).graphEdges = ag.graphEdges := by
  intro items
  induction items with
  | nil =>
      intro ag acc
      rfl
  | cons p rest ih =>
      intro ag acc
      obtain ⟨fid, content⟩ := p
      cases hn : normalizeFact content with
      | none => simp [CausalAgent.integrateLoop, hn]
      | some d =>
          simp only [CausalAgent.integrateLoop, hn]
          exact ih _ _

theorem integrateLoop_subset (now : String) :
    ∀ (items : List (String × PyVal)) (ag : CausalAgent) (acc : List String),
      (∀ k ∈ ag.factIds, k ∈ ag.nodeIds) →
      ∀ k ∈ ((ag.integrateLoop now acc items).1).factIds,
        k ∈ ((ag.integrateLoop now acc items).1).nodeIds := by
  intro items
  induction items with
  | nil =>
      intro ag acc h
      exact h
  | cons p rest ih =>
      intro ag acc h
      obtain ⟨fid, content⟩ := p
      cases hn : normalizeFact content with
      | none =>
          simp only [CausalAgent.integrateLoop, hn]
          exact h
      | some d =>
          simp only [CausalAgent.integrateLoop, hn]
          apply ih
          intro k hk
          rcases (mem_map_fst_assocSet ag.facts_db fid k _).mp hk with h1 | h1
          · exact (mem_map_fst_addNode ag.graphNodes fid k _).mpr (Or.inl h1)
          · exact (mem_map_fst_addNode ag.graphNodes fid k _).mpr
              (Or.inr (h k h1))

set_option maxRecDepth 10000 in
/-- C1 counterexample: the state after one `build_4d_graph("x")` call is
reachable, but the command node id (the 8-hex-char hash of `"x"`) is in the
graph's node set and NOT among the fact-registry keys — `build_4d_graph`
never writes the command node into `facts_db`, so the two key sets are not
equal in every reachable state. -/
theorem graph_nodes_eq_fact_keys_counterexample :
    Reachable (initAgent.build_4d_graph "x" "T").1 ∧
    sha8 "x" ∈ (initAgent.build_4d_graph "x" "T").1.nodeIds ∧
    ¬ sha8 "x" ∈ (initAgent.build_4d_graph "x" "T").1.factIds :=
  ⟨Reachable.build "x" "T" Reachable.init, by decide, by decide⟩

/-- C1 (amended): in every reachable state of the fact/graph store, the set
of fact-registry keys is a SUBSET of the graph's node ids (they coincide
until the first `build_4d_graph` call, which adds the command node to the
graph only). -/
theorem fact_keys_subset_node_ids {ag : CausalAgent} (h : Reachable ag) :
    ∀ k ∈ ag.factIds, k ∈ ag.nodeIds := by
  induction h with
  | init => decide
  | @build command now a hR ih =>
      intro k hk
      have hfd : ((a.build_4d_graph command now).1).facts_db = a.facts_db :=
        build_facts_db a command now
      have hk1 : k ∈ a.factIds := by
        have hids : ((a.build_4d_graph command now).1).factIds = a.factIds := by
          unfold CausalAgent.factIds
          rw [hfd]
        rwa [hids] at hk
      exact build_nodes_mono a command now k (ih k hk1)
  | @integrate facts_data now a hR ih =>
      cases facts_data with
      | str s => exact ih
      | int n => exact ih
      | list l => exact ih
      | dict items => exact integrateLoop_subset now items a [] ih

/-- Witness for C1 (amended), applied at the freshly constructed store. -/
theorem fact_keys_subset_node_ids_witness :
    "gym_move" ∈ initAgent.nodeIds :=
  fact_keys_subset_node_ids Reachable.init "gym_move" (by decide)

/-- C10: in every reachable state, each graph edge points at one of the
three seed facts — `_build_causal_relationships` is the only place edges are
created, and its rule table targets exactly these ids. -/
theorem edge_targets_are_seed_facts {ag : CausalAgent} (h : Reachable ag) :
    ∀ e ∈ ag.graphEdges,
      e.2.1 ∈ ["mom_birthday", "gym_move", "ecosystem_bind"] := by
  induction h with
  | init => decide
  | @build command now a hR ih =>
      have hprev : ∀ e ∈ ((a.add_command_node command now).1).graphEdges,
          e.2.1 ∈ ["mom_birthday", "gym_move", "ecosystem_bind"] := ih
      exact buildCausal_edge_targets (a.add_command_node command now).1
        (sha8 command) command _ hprev (by simp) (by simp) (by simp)
  | @integrate facts_data now a hR ih =>
      cases facts_data with
      | str s => exact ih
      | int n => exact ih
      | list l => exact ih
      | dict items =>
          intro e he
          have hedges : ((a.integrateLoop now [] items).1).graphEdges =
              a.graphEdges := integrateLoop_edges now items a []
          exact ih e (hedges ▸ he)

set_option maxRecDepth 10000 in
/-- Witness for C10, applied at the reachable state holding the one edge
built from `"plan SF move"`. -/
theorem edge_targets_are_seed_facts_witness :
    (sha8 "plan SF move", "gym_move", "action").2.1 ∈
      ["mom_birthday", "gym_move", "ecosystem_bind"] :=
  edge_targets_are_seed_facts
    (Reachable.build "plan SF move" "T" Reachable.init)
    (sha8 "plan SF move", "gym_move", "action") (by decide)

end ACE
